import Mathlib

/-!
Verification of the canvas interaction and history engine of the
multimeme repository.  The data model and all operations are shallowly
embedded from the TypeScript source: numbers become rationals, optional
fields become `Option`, the JavaScript remainder and truthiness rules are
modelled explicitly.
-/

namespace Multimeme

/-- Models the JavaScript expression `v || d` for an optional number:
the fallback is used when the value is missing or zero (both falsy). -/
def jsNumOr (o : Option ℚ) (d : ℚ) : ℚ :=
  match o with
  | none => d
  | some v => if v = 0 then d else v

/-- Models `s || null` for an optional string: the empty string is falsy
and collapses to `none`. -/
def jsStrOrNull (o : Option String) : Option String :=
  match o with
  | none => none
  | some s => if s = "" then none else some s

/-- Truncation toward zero, matching how the JavaScript remainder
operator divides. -/
def ratTrunc (q : ℚ) : ℤ :=
  if 0 ≤ q then ⌊q⌋ else ⌈q⌉

/-- Models the JavaScript remainder operator `a % b` on numbers: the
result has the sign of the dividend `a`. -/
def jsMod (a b : ℚ) : ℚ :=
  a - b * ratTrunc (a / b)

/-- The `type` discriminant of `CanvasElementData`. -/
inductive ElementType
  | textbox
  | image
  | shape
deriving DecidableEq, Repr

/-- The `fontFamily` enum of `CanvasElementData`. -/
inductive FontFamily
  | comicSans
  | sans
deriving DecidableEq, Repr

/-- The `textColor` enum of `CanvasElementData`. -/
inductive TextColor
  | black
  | white
deriving DecidableEq, Repr

/-- The `shape` enum of `CanvasElementData`. -/
inductive ShapeKind
  | rectangle
  | square
  | circle
  | triangle
deriving DecidableEq, Repr

/-- The `CropRect` interface: a crop rectangle in natural-pixel
coordinates. -/
structure CropRect where
  x : ℚ
  y : ℚ
  width : ℚ
  height : ℚ
deriving DecidableEq, Repr

/-- The `CanvasElementData` interface from `CanvasElement.tsx`.  Optional
TypeScript fields become `Option`. -/
structure CanvasElementData where
  id : String
  type : ElementType
  x : ℚ
  y : ℚ
  width : Option ℚ := none
  height : Option ℚ := none
  rotation : Option ℚ := none
  content : Option String := none
  src : Option String := none
  fontSize : Option ℚ := none
  fontFamily : Option FontFamily := none
  italic : Option Bool := none
  textColor : Option TextColor := none
  naturalWidth : Option ℚ := none
  naturalHeight : Option ℚ := none
  crop : Option CropRect := none
  shape : Option ShapeKind := none
  fillColor : Option String := none
deriving DecidableEq, Repr

/-- The state owned by the `Home` page component that the claims are
about: the element list, the selection set, and the snapshot history
with its cursor. -/
structure HomeState where
  elements : List CanvasElementData
  selectedElementIds : Finset String
  history : List (List CanvasElementData)
  historyIndex : ℕ
deriving DecidableEq

/-- Initial component state: `useState([[]])` and `useState(0)`. -/
def initState : HomeState :=
  { elements := []
    selectedElementIds := ∅
    history := [[]]
    historyIndex := 0 }

/-- Embeds `updateElementsWithHistory` from `Home.tsx`: truncate any redo
branch with `history.slice(0, historyIndex + 1)`, push the new snapshot,
and move the cursor to the new last index. -/
def updateElementsWithHistory (s : HomeState) (newElements : List CanvasElementData) :
    HomeState :=
  let newHistory := s.history.take (s.historyIndex + 1) ++ [newElements]
  { s with
    history := newHistory
    historyIndex := newHistory.length - 1
    elements := newElements }

/-- Embeds `handleUndo` from `Home.tsx`: when the cursor is positive, move it
back one step, load that snapshot, and clear the selection. -/
def handleUndo (s : HomeState) : HomeState :=
  if 0 < s.historyIndex then
    { s with
      historyIndex := s.historyIndex - 1
      elements := s.history.getD (s.historyIndex - 1) []
      selectedElementIds := ∅ }
  else s

/-- Embeds `handleRedo` from `Home.tsx`: when the cursor is before the last
index, move it forward one step, load that snapshot, and clear the
selection. -/
def handleRedo (s : HomeState) : HomeState :=
  if s.historyIndex < s.history.length - 1 then
    { s with
      historyIndex := s.historyIndex + 1
      elements := s.history.getD (s.historyIndex + 1) []
      selectedElementIds := ∅ }
  else s

/-- States of the history engine reachable from the initial state via
commits, undo, and redo. -/
inductive Reachable : HomeState → Prop
  | init : Reachable initState
  | commit (s : HomeState) (es : List CanvasElementData) :
      Reachable s → Reachable (updateElementsWithHistory s es)
  | undo (s : HomeState) : Reachable s → Reachable (handleUndo s)
  | redo (s : HomeState) : Reachable s → Reachable (handleRedo s)

/-- A sample textbox element used to instantiate witnesses. -/
def sampleTextbox : CanvasElementData :=
  { id := "textbox-1"
    type := ElementType.textbox
    x := 10
    y := 20
    rotation := some 0
    content := some "hi"
    fontSize := some 16 }

/-- A reachable state whose cursor sits at 0 below a redo branch:
commit one textbox, then undo. -/
def undoRedoProbe : HomeState :=
  handleUndo (updateElementsWithHistory initState [sampleTextbox])

/-- Embeds `handleElementContentChange` from `useCanvasElements.ts` and
`Home.tsx`: replace the content of the element with the given id via
`setElements` only, without touching history. -/
def handleElementContentChange (s : HomeState) (id : String)
    (content : String) : HomeState :=
  { s with
    elements := s.elements.map fun el =>
      if el.id = id then { el with content := some content } else el }

/-- Embeds `handleRotate` from `useCanvasElements.ts`: add the delta to the
current rotation and reduce with the JavaScript remainder operator,
committed as one history entry. -/
def handleRotate (s : HomeState) (elementId : String)
    (deltaRotation : ℚ) : HomeState :=
  updateElementsWithHistory s (s.elements.map fun el =>
    if el.id = elementId then
      { el with
        rotation := some (jsMod (jsNumOr el.rotation 0 + deltaRotation) 360) }
    else el)

/-- The `pendingSizeRef` payload captured during a rotate/resize
gesture. -/
structure PendingSize where
  width : Option ℚ := none
  height : Option ℚ := none
  fontSize : Option ℚ := none
deriving DecidableEq, Repr

/-- A TypeScript object-spread update: a defined new value overrides the
old one, an undefined one leaves it. -/
def optOverride (newVal old : Option ℚ) : Option ℚ :=
  match newVal with
  | some v => some v
  | none => old

/-- The rotation/resize commit branch of `handleMouseUp` in
`useCanvasInteractions`: reduce the pending rotation with the JavaScript
remainder operator, merge any pending size fields, and commit once. -/
def commitRotationResize (s : HomeState) (elementId : String)
    (pendingRotation : ℚ) (pendingSize : Option PendingSize) : HomeState :=
  updateElementsWithHistory s (s.elements.map fun el =>
    if el.id = elementId then
      match pendingSize with
      | some ps =>
        { el with
          rotation := some (jsMod pendingRotation 360)
          width := optOverride ps.width el.width
          height := optOverride ps.height el.height
          fontSize := optOverride ps.fontSize el.fontSize }
      | none => { el with rotation := some (jsMod pendingRotation 360) }
    else el)

/-- A concrete one-element state used for counterexamples and
witnesses. -/
def rotElement : CanvasElementData :=
  { id := "a"
    type := ElementType.textbox
    x := 0
    y := 0
    rotation := some 0 }

/-- A concrete state holding `rotElement` with a consistent one-entry
history. -/
def rotState : HomeState :=
  { elements := [rotElement]
    selectedElementIds := ∅
    history := [[rotElement]]
    historyIndex := 0 }

/-- First-match lookup in an association list, modelling `Map.get` for
the per-element drag bookkeeping maps. -/
def lookupStart (starts : List (String × ℚ × ℚ)) (id : String) :
    Option (ℚ × ℚ) :=
  (starts.find? fun p => p.1 == id).map fun p => p.2

/-- The drag branch of `handleMouseMove` in `useCanvasInteractions`: for
each dragged id with a recorded start position, record the clamped
position `max(0, start + delta)` per axis. -/
def computeDragPositions (elementIds : List String)
    (elementStarts : List (String × ℚ × ℚ)) (deltaX deltaY : ℚ) :
    List (String × ℚ × ℚ) :=
  elementIds.filterMap fun id =>
    (lookupStart elementStarts id).map fun st =>
      (id, max 0 (st.1 + deltaX), max 0 (st.2 + deltaY))

/-- The per-element position update applied at drag release: take the
recorded final position when one exists. -/
def applyDragPosition (positions : List (String × ℚ × ℚ))
    (el : CanvasElementData) : CanvasElementData :=
  match lookupStart positions el.id with
  | some pos => { el with x := pos.1, y := pos.2 }
  | none => el

/-- The drag commit branch of `handleMouseUp` in
`useCanvasInteractions`: split the elements into non-dragged and
dragged, update the dragged positions, move them to the end of the
order, and commit once. -/
def commitDragRelease (s : HomeState) (dragIds : List String)
    (positions : List (String × ℚ × ℚ)) : HomeState :=
  let nonDragged := s.elements.filter fun el => !(decide (el.id ∈ dragIds))
  let dragged := s.elements.filter fun el => decide (el.id ∈ dragIds)
  let updatedDragged := dragged.map (applyDragPosition positions)
  updateElementsWithHistory s (nonDragged ++ updatedDragged)

/-- The `MarqueeState` tracked while sweeping a marquee. -/
structure MarqueeState where
  startX : ℚ
  startY : ℚ
  currentX : ℚ
  currentY : ℚ
deriving DecidableEq, Repr

/-- A normalized marquee rectangle. -/
structure MarqueeRect where
  x : ℚ
  y : ℚ
  w : ℚ
  h : ℚ
deriving DecidableEq, Repr

/-- Embeds `getMarqueeRect` from `useCanvasInteractions`: normalize so x and y
are the top-left corner. -/
def getMarqueeRect (m : MarqueeState) : MarqueeRect :=
  { x := min m.startX m.currentX
    y := min m.startY m.currentY
    w := |m.currentX - m.startX|
    h := |m.currentY - m.startY| }

/-- Resolution of an element dimension as in `elementIntersectsRect`:
`undefined` and 0 are falsy and fall back to the measured DOM size when
one exists, otherwise to the 100 by 30 default. -/
def resolveDim (dim : Option ℚ) (fallback : ℚ) : ℚ :=
  match dim with
  | none => fallback
  | some v => if v = 0 then fallback else v

/-- Embeds `elementIntersectsRect` from `useCanvasInteractions`: resolve the
element box, then test axis-aligned overlap with the marquee
rectangle.  `measured` is the DOM measurement of the rendered box when
the element has one. -/
def elementIntersectsRect (el : CanvasElementData)
    (measured : Option (ℚ × ℚ)) (rect : MarqueeRect) : Bool :=
  let dims : ℚ × ℚ :=
    if el.width = none ∨ el.width = some 0 ∨
        el.height = none ∨ el.height = some 0 then
      match measured with
      | some m => (resolveDim el.width m.1, resolveDim el.height m.2)
      | none => (resolveDim el.width 100, resolveDim el.height 30)
    else ((el.width.getD 0), (el.height.getD 0))
  !(decide (el.x + dims.1 < rect.x) || decide (el.x > rect.x + rect.w) ||
    decide (el.y + dims.2 < rect.y) || decide (el.y > rect.y + rect.h))

/-- The live marquee selection computed on every pointer move: the ids
of all elements whose box intersects the normalized rectangle. -/
def marqueeSelection (elements : List CanvasElementData)
    (measure : String → Option (ℚ × ℚ)) (m : MarqueeState) : List String :=
  (elements.filter fun el =>
    elementIntersectsRect el (measure el.id) (getMarqueeRect m)).map
    fun el => el.id

/-- Falsiness of `content?.trim()`: true when the content is missing or
trims to the empty string. -/
def emptyTrimmed (c : Option String) : Bool :=
  match c with
  | none => true
  | some s => s.trim == ""

/-- Embeds `handleElementBlur` from `useCanvasElements.ts`: on focus loss of an
empty textbox, delete it with one history commit and drop its id from
the selection; otherwise do nothing. -/
def handleElementBlur (s : HomeState) (id : String) : HomeState :=
  match s.elements.find? (fun el => el.id == id) with
  | some el =>
    if el.type = ElementType.textbox ∧ emptyTrimmed el.content then
      let t := updateElementsWithHistory s
        (s.elements.filter fun e => !(e.id == id))
      if id ∈ s.selectedElementIds then
        { t with selectedElementIds := s.selectedElementIds.erase id }
      else t
    else s
  | none => s

/-- The eyedropper sub-state: the `Home` state together with
`eyedropperTargetId`, `eyedropperStartColorRef` and
`lastPreviewColorRef`. -/
structure EyedropperState where
  home : HomeState
  targetId : Option String
  startColor : Option String
  lastPreviewColor : Option String
deriving DecidableEq

/-- Embeds `previewShapeFillColor` from `useCanvasElements.ts`: live preview of
a fill color via `setElements` only, no history entry. -/
def previewShapeFillColor (s : HomeState) (id color : String) : HomeState :=
  { s with
    elements := s.elements.map fun el =>
      if el.id = id then { el with fillColor := some color } else el }

/-- Embeds `commitShapeFillColor` from `useCanvasElements.ts`: set the fill
color and commit one history entry. -/
def commitShapeFillColor (s : HomeState) (id color : String) : HomeState :=
  updateElementsWithHistory s (s.elements.map fun el =>
    if el.id = id then { el with fillColor := some color } else el)

/-- Embeds `handleStartShapeEyedropper`: toggle off when re-triggered for the
active target (restoring the pre-activation preview), otherwise record
the current fill color and activate for the given id. -/
def handleStartShapeEyedropper (st : EyedropperState) (id : String) :
    EyedropperState :=
  if st.targetId = some id then
    { st with
      targetId := none
      lastPreviewColor := none
      home :=
        match st.startColor with
        | some c => previewShapeFillColor st.home id c
        | none => st.home
      startColor := none }
  else
    { st with
      lastPreviewColor := none
      startColor := jsStrOrNull
        ((st.home.elements.find? fun el => el.id == id).bind
          fun el => el.fillColor)
      targetId := some id }

/-- The eyedropper `handleMouseMove`: on a successful pixel read that
differs from the last preview, apply a live preview to the target. -/
def eyedropperMouseMove (st : EyedropperState) (color : Option String) :
    EyedropperState :=
  match st.targetId with
  | none => st
  | some t =>
    match color with
    | none => st
    | some c =>
      if some c = st.lastPreviewColor then st
      else
        { st with
          lastPreviewColor := some c
          home := previewShapeFillColor st.home t c }

/-- The eyedropper `handleClick`: on a successful pixel read, commit the
sampled color as one history entry and exit the mode. -/
def eyedropperClick (st : EyedropperState) (color : Option String) :
    EyedropperState :=
  match st.targetId with
  | none => st
  | some t =>
    match color with
    | none => st
    | some c =>
      { home := commitShapeFillColor st.home t c
        targetId := none
        startColor := none
        lastPreviewColor := none }

/-- The eyedropper `handleKeyDown` Escape branch: restore the recorded
pre-activation fill color as a preview and exit without committing. -/
def eyedropperEscape (st : EyedropperState) : EyedropperState :=
  match st.targetId with
  | none => st
  | some t =>
    { home :=
        match st.startColor with
        | some c => previewShapeFillColor st.home t c
        | none => st.home
      targetId := none
      startColor := none
      lastPreviewColor := none }

/-- An eyedropper session: activation for a target from an idle
eyedropper state, followed by a sequence of pointer-move samples. -/
def eyedropperSession (s : HomeState) (tid : String)
    (moves : List (Option String)) : EyedropperState :=
  moves.foldl eyedropperMouseMove
    (handleStartShapeEyedropper ⟨s, none, none, none⟩ tid)

/-- The eight crop handles of the `Image` component. -/
inductive HandleDirection
  | n
  | s
  | e
  | w
  | nw
  | ne
  | sw
  | se
deriving DecidableEq, Repr

/-- Tests whether the handle adjusts the west edge. -/
def handleHasW : HandleDirection → Bool
  | .w | .nw | .sw => true
  | _ => false

/-- Tests whether the handle adjusts the east edge. -/
def handleHasE : HandleDirection → Bool
  | .e | .ne | .se => true
  | _ => false

/-- Tests whether the handle adjusts the north edge. -/
def handleHasN : HandleDirection → Bool
  | .n | .nw | .ne => true
  | _ => false

/-- Tests whether the handle adjusts the south edge. -/
def handleHasS : HandleDirection → Bool
  | .s | .sw | .se => true
  | _ => false

/-- The 20 natural-pixel minimum crop size (`MIN_CROP_PX`). -/
def MIN_CROP_PX : ℚ := 20

/-- The edge-adjustment of `handleMouseMove` in the `Image` crop mode:
starting from the crop captured at handle mousedown, move the edges
named by the handle by the natural-pixel delta, clamped to the image
bounds and the minimum size. -/
def applyCropHandle (handle : HandleDirection) (startCrop : CropRect)
    (natDx natDy nw nh : ℚ) : CropRect :=
  let c1 :=
    if handleHasW handle then
      let clampedX := max 0 (min (startCrop.x + natDx)
        (startCrop.x + startCrop.width - MIN_CROP_PX))
      { startCrop with
        width := startCrop.width - (clampedX - startCrop.x)
        x := clampedX }
    else startCrop
  let c2 :=
    if handleHasE handle then
      { c1 with
        width := max MIN_CROP_PX (min (startCrop.width + natDx)
          (nw - startCrop.x)) }
    else c1
  let c3 :=
    if handleHasN handle then
      let clampedY := max 0 (min (startCrop.y + natDy)
        (startCrop.y + startCrop.height - MIN_CROP_PX))
      { c2 with
        height := startCrop.height - (clampedY - startCrop.y)
        y := clampedY }
    else c2
  if handleHasS handle then
    { c3 with
      height := max MIN_CROP_PX (min (startCrop.height + natDy)
        (nh - startCrop.y)) }
  else c3

/-- The crop invariant stated by the specification. -/
def cropInv (c : CropRect) (nw nh : ℚ) : Prop :=
  0 ≤ c.x ∧ 0 ≤ c.y ∧ c.x + c.width ≤ nw ∧ c.y + c.height ≤ nh ∧
    MIN_CROP_PX ≤ c.width ∧ MIN_CROP_PX ≤ c.height

instance (c : CropRect) (nw nh : ℚ) : Decidable (cropInv c nw nh) := by
  unfold cropInv
  infer_instance

/-- A whole sequence of crop-handle adjustments: each gesture captures
the current working crop as its start crop and applies one handle
drag. -/
def applyCropGestures (c0 : CropRect)
    (gs : List (HandleDirection × ℚ × ℚ)) (nw nh : ℚ) : CropRect :=
  gs.foldl (fun c g => applyCropHandle g.1 c g.2.1 g.2.2 nw nh) c0

/-- Embeds `commitCrop` from the `Image` component: the working crop rectangle
is committed unchanged, and the display size is recomputed preserving
the scale captured when crop mode was entered. -/
def commitCropResult (localCrop : CropRect) (preCrop : Option CropRect)
    (preWidth preHeight nw nh : ℚ) : CropRect × ℚ × ℚ :=
  let scaleX :=
    match preCrop with
    | some c => preWidth / c.width
    | none => max (preWidth / nw) (preHeight / nh)
  let scaleY :=
    match preCrop with
    | some c => preHeight / c.height
    | none => max (preWidth / nw) (preHeight / nh)
  (localCrop, localCrop.width * scaleX, localCrop.height * scaleY)

/-- Embeds `handleCropImage` from `useCanvasElements.ts`: store the committed
crop rectangle and display size on the element with one history
commit. -/
def handleCropImage (s : HomeState) (id : String) (crop : CropRect)
    (newWidth newHeight nw nh : ℚ) : HomeState :=
  updateElementsWithHistory s (s.elements.map fun el =>
    if el.id = id then
      { el with
        crop := some crop
        width := some newWidth
        height := some newHeight
        naturalWidth := some nw
        naturalHeight := some nh }
    else el)

/-- A sample shape element for eyedropper witnesses. -/
def shapeElement : CanvasElementData :=
  { id := "s1"
    type := ElementType.shape
    x := 0
    y := 0
    width := some 200
    height := some 140
    rotation := some 0
    shape := some ShapeKind.rectangle
    fillColor := some "#FDE68A" }

/-- A concrete state holding `shapeElement`. -/
def shapeState : HomeState :=
  { elements := [shapeElement]
    selectedElementIds := ∅
    history := [[shapeElement]]
    historyIndex := 0 }

/-- Element A of the drag scenario in the specification. -/
def dragElemA : CanvasElementData :=
  { id := "A", type := ElementType.textbox, x := 10, y := 10 }

/-- Element B of the drag scenario in the specification. -/
def dragElemB : CanvasElementData :=
  { id := "B", type := ElementType.textbox, x := 200, y := 10 }

/-- The drag scenario state: A and B both present and selected. -/
def dragScenario : HomeState :=
  { elements := [dragElemA, dragElemB]
    selectedElementIds := {"A", "B"}
    history := [[dragElemA, dragElemB]]
    historyIndex := 0 }

/-- A textbox with no content, hence falsy trimmed content. -/
def emptyTextbox : CanvasElementData :=
  { id := "t0", type := ElementType.textbox, x := 0, y := 0,
    content := none }

/-- A concrete state holding `emptyTextbox`, selected. -/
def blurState : HomeState :=
  { elements := [emptyTextbox]
    selectedElementIds := {"t0"}
    history := [[emptyTextbox]]
    historyIndex := 0 }

theorem getD_append_length (l : List (List CanvasElementData))
    (a d : List CanvasElementData) : (l ++ [a]).getD l.length d = a := by
  simp [List.getD]

/-- Every reachable state has a valid cursor, a nonempty history, and an
active element list equal to the snapshot under the cursor. -/
theorem reachable_invariant (s : HomeState) (h : Reachable s) :
    s.historyIndex < s.history.length ∧
      s.elements = s.history.getD s.historyIndex [] := by
  induction h with
  | init => exact ⟨Nat.zero_lt_one, rfl⟩
  | commit t es _ ih =>
    obtain ⟨hlt, _⟩ := ih
    refine ⟨?_, ?_⟩
    · simp only [updateElementsWithHistory, List.length_append,
        List.length_singleton]
      omega
    · simp only [updateElementsWithHistory, List.length_append,
        List.length_singleton, Nat.add_sub_cancel]
      exact (getD_append_length _ _ _).symm
  | undo t _ ih =>
    obtain ⟨hlt, helems⟩ := ih
    by_cases h0 : 0 < t.historyIndex
    · simp only [handleUndo, if_pos h0]
      exact ⟨by omega, trivial⟩
    · simp only [handleUndo, if_neg h0]
      exact ⟨hlt, helems⟩
  | redo t _ ih =>
    obtain ⟨hlt, helems⟩ := ih
    by_cases h0 : t.historyIndex < t.history.length - 1
    · simp only [handleRedo, if_pos h0]
      exact ⟨by omega, trivial⟩
    · simp only [handleRedo, if_neg h0]
      exact ⟨hlt, helems⟩

/-- Claim C1: committing a new canvas state while the history cursor is
not at the tail truncates the redo branch: after the commit the history
equals the first cursor-plus-one snapshots followed by the new state, its
length is cursor plus two, the cursor equals the new last index, and
every entry of the new history is either a kept prefix entry or the new
state, so no previously redo-able entry remains reachable. -/
theorem C1_commit_truncates_redo (s : HomeState) (es : List CanvasElementData)
    (h : s.historyIndex < s.history.length) :
    (updateElementsWithHistory s es).history =
        s.history.take (s.historyIndex + 1) ++ [es] ∧
      (updateElementsWithHistory s es).history.length = s.historyIndex + 2 ∧
      (updateElementsWithHistory s es).historyIndex =
        (updateElementsWithHistory s es).history.length - 1 ∧
      (updateElementsWithHistory s es).historyIndex = s.historyIndex + 1 ∧
      (updateElementsWithHistory s es).elements = es ∧
      ∀ st ∈ (updateElementsWithHistory s es).history,
        st ∈ s.history.take (s.historyIndex + 1) ∨ st = es := by
  have hlen : (s.history.take (s.historyIndex + 1)).length =
      s.historyIndex + 1 := by
    rw [List.length_take]
    omega
  refine ⟨rfl, ?_, ?_, ?_, rfl, ?_⟩
  · simp only [updateElementsWithHistory, List.length_append,
      List.length_singleton, hlen]
  · rfl
  · simp only [updateElementsWithHistory, List.length_append,
      List.length_singleton, hlen]
    omega
  · intro st hst
    simp only [updateElementsWithHistory, List.mem_append,
      List.mem_singleton] at hst
    exact hst

/-- Witness for C1 at a concrete state: committing onto the fresh
initial history appends one snapshot. -/
theorem C1_commit_truncates_redo_witness :
    initState.historyIndex < initState.history.length ∧
      (updateElementsWithHistory initState [sampleTextbox]).history =
        initState.history.take (initState.historyIndex + 1) ++
          [[sampleTextbox]] :=
  ⟨by decide, (C1_commit_truncates_redo initState [sampleTextbox]
    (by decide)).1⟩

/-- Counterexample to claim C2 as stated: at the reachable state with
cursor 0 and a redo entry above it, undo is a no-op but redo then moves
the cursor forward, so undo immediately followed by redo does not
restore the prior active state. -/
theorem C2_undo_redo_counterexample :
    Reachable undoRedoProbe ∧
      (handleRedo (handleUndo undoRedoProbe)).elements ≠
        undoRedoProbe.elements := by
  refine ⟨Reachable.undo _ (Reachable.commit _ _ Reachable.init), ?_⟩
  decide

/-- Claim C2, amended: for every reachable state, undo is a no-op at
cursor 0 and redo is a no-op at the last index; otherwise each moves the
cursor by one, loads the snapshot at the new cursor, never appends a
snapshot, and clears the selection; and whenever the cursor is positive
(so undo actually moves), undo immediately followed by redo restores the
exact prior active state. -/
theorem C2_undo_redo_navigation (s : HomeState) (h : Reachable s) :
    (s.historyIndex = 0 → handleUndo s = s) ∧
      (s.historyIndex = s.history.length - 1 → handleRedo s = s) ∧
      (0 < s.historyIndex →
        (handleUndo s).history = s.history ∧
          (handleUndo s).historyIndex = s.historyIndex - 1 ∧
          (handleUndo s).elements = s.history.getD (s.historyIndex - 1) [] ∧
          (handleUndo s).selectedElementIds = ∅ ∧
          (handleRedo (handleUndo s)).elements = s.elements ∧
          (handleRedo (handleUndo s)).historyIndex = s.historyIndex ∧
          (handleRedo (handleUndo s)).history = s.history ∧
          (handleRedo (handleUndo s)).selectedElementIds = ∅) ∧
      (s.historyIndex < s.history.length - 1 →
        (handleRedo s).history = s.history ∧
          (handleRedo s).historyIndex = s.historyIndex + 1 ∧
          (handleRedo s).elements = s.history.getD (s.historyIndex + 1) [] ∧
          (handleRedo s).selectedElementIds = ∅) := by
  obtain ⟨hlt, helems⟩ := reachable_invariant s h
  refine ⟨?_, ?_, ?_, ?_⟩
  · intro h0
    simp [handleUndo, h0]
  · intro htail
    have : ¬ s.historyIndex < s.history.length - 1 := by omega
    simp [handleRedo, this]
  · intro hpos
    have hredo : s.historyIndex - 1 < s.history.length - 1 := by omega
    have hidx : s.historyIndex - 1 + 1 = s.historyIndex := by omega
    simp only [handleUndo, if_pos hpos]
    refine ⟨trivial, trivial, trivial, trivial, ?_⟩
    simp only [handleRedo, if_pos hredo]
    refine ⟨?_, hidx, trivial, trivial⟩
    rw [hidx, ← helems]
  · intro hlt2
    simp only [handleRedo, if_pos hlt2]
    exact ⟨trivial, trivial, trivial, trivial⟩

/-- Witness for C2 at a concrete reachable state: after one commit the
cursor is 1, and undo followed by redo restores the committed
elements. -/
theorem C2_undo_redo_navigation_witness :
    Reachable (updateElementsWithHistory initState [sampleTextbox]) ∧
      0 < (updateElementsWithHistory initState [sampleTextbox]).historyIndex ∧
      (handleRedo (handleUndo
          (updateElementsWithHistory initState [sampleTextbox]))).elements =
        (updateElementsWithHistory initState [sampleTextbox]).elements := by
  have hreach : Reachable (updateElementsWithHistory initState [sampleTextbox]) :=
    Reachable.commit _ _ Reachable.init
  have hpos : 0 < (updateElementsWithHistory initState [sampleTextbox]).historyIndex := by
    decide
  exact ⟨hreach, hpos,
    ((((C2_undo_redo_navigation _ hreach).2.2.1 hpos).2).2.2.2).1⟩

/-- Claim C10: changing the text content of a textbox replaces only the
content field of the elements with the given id, leaves every other
element untouched and in place, and appends no history entry: history,
cursor, and selection are unchanged. -/
theorem C10_content_change_frame (s : HomeState) (id : String)
    (content : String) :
    (handleElementContentChange s id content).history = s.history ∧
      (handleElementContentChange s id content).historyIndex =
        s.historyIndex ∧
      (handleElementContentChange s id content).selectedElementIds =
        s.selectedElementIds ∧
      (handleElementContentChange s id content).elements.length =
        s.elements.length ∧
      ∀ n (hn : n < s.elements.length),
        (handleElementContentChange s id content).elements.get
            ⟨n, by simpa [handleElementContentChange] using hn⟩ =
          (if (s.elements.get ⟨n, hn⟩).id = id
            then { s.elements.get ⟨n, hn⟩ with content := some content }
            else s.elements.get ⟨n, hn⟩) := by
  refine ⟨rfl, rfl, rfl, by simp [handleElementContentChange], ?_⟩
  intro n hn
  simp [handleElementContentChange]

/-- Witness for C10 at a concrete state: the single element at index 0
gets the new content. -/
theorem C10_content_change_frame_witness :
    (0 : ℕ) < rotState.elements.length ∧
      (handleElementContentChange rotState "a" "yo").elements.get
          ⟨0, by simp [handleElementContentChange, rotState]⟩ =
        (if (rotState.elements.get ⟨0, by simp [rotState]⟩).id = "a"
          then { rotState.elements.get ⟨0, by simp [rotState]⟩ with
                  content := some "yo" }
          else rotState.elements.get ⟨0, by simp [rotState]⟩) :=
  ⟨by decide,
    (C10_content_change_frame rotState "a" "yo").2.2.2.2 0 (by decide)⟩

/-- The JavaScript remainder by a positive modulus lands strictly
between the negated modulus and the modulus. -/
theorem jsMod_bounds (a b : ℚ) (hb : 0 < b) :
    -b < jsMod a b ∧ jsMod a b < b := by
  have hbne : b ≠ 0 := ne_of_gt hb
  unfold jsMod ratTrunc
  by_cases h : 0 ≤ a / b
  · rw [if_pos h]
    have h1 : (⌊a / b⌋ : ℚ) * b ≤ a := (le_div_iff₀ hb).mp (Int.floor_le _)
    have h2 : a < ((⌊a / b⌋ : ℚ) + 1) * b :=
      (div_lt_iff₀ hb).mp (Int.lt_floor_add_one _)
    constructor <;> nlinarith
  · rw [if_neg h]
    have h1 : a ≤ (⌈a / b⌉ : ℚ) * b := (div_le_iff₀ hb).mp (Int.le_ceil _)
    have h2 : ((⌈a / b⌉ : ℚ) - 1) * b < a := by
      have := Int.ceil_lt_add_one (a / b)
      have h3 : (⌈a / b⌉ : ℚ) - 1 < a / b := by linarith
      exact (lt_div_iff₀ hb).mp h3
    constructor <;> nlinarith

/-- Evaluation of `ratTrunc` on a nonnegative argument. -/
theorem ratTrunc_eq_of_nonneg (q : ℚ) (n : ℤ) (h0 : 0 ≤ q)
    (h1 : (n : ℚ) ≤ q) (h2 : q < n + 1) : ratTrunc q = n := by
  unfold ratTrunc
  rw [if_pos h0]
  exact Int.floor_eq_iff.mpr ⟨h1, h2⟩

/-- Evaluation of `ratTrunc` on a negative argument. -/
theorem ratTrunc_eq_of_neg (q : ℚ) (n : ℤ) (h0 : ¬ 0 ≤ q)
    (h1 : (n : ℚ) - 1 < q) (h2 : q ≤ n) : ratTrunc q = n := by
  unfold ratTrunc
  rw [if_neg h0]
  exact Int.ceil_eq_iff.mpr ⟨h1, h2⟩

/-- Counterexample to claim C3 as stated: rotating the element at
rotation 0 by the ArrowLeft delta of -5 commits rotation -5, which is
not in the interval from 0 inclusive to 360 exclusive, because the
JavaScript remainder keeps the sign of the dividend. -/
theorem C3_rotation_counterexample :
    (handleRotate rotState "a" (-5)).elements.map (fun el => el.rotation) =
        [some (-5 : ℚ)] ∧
      ¬ (0 : ℚ) ≤ -5 := by
  have ht : ratTrunc ((-5 : ℚ) / 360) = 0 :=
    ratTrunc_eq_of_neg _ 0 (by norm_num) (by norm_num) (by norm_num)
  have hm : jsMod (-5 : ℚ) 360 = -5 := by
    unfold jsMod
    rw [ht]
    norm_num
  constructor
  · simp [handleRotate, updateElementsWithHistory, rotState, rotElement,
      jsNumOr, hm]
  · norm_num

/-- Claim C3, amended: after any rotation commit (the keyboard
`handleRotate` or the rotate-gesture commit of `handleMouseUp`), the
stored rotation of the target lies strictly between -360 and 360 and is
congruent modulo 360 to the unnormalized accumulated rotation. -/
theorem C3_rotation_commit_range (s : HomeState) (eid : String)
    (delta pending : ℚ) (ps : Option PendingSize) :
    (∀ el ∈ (handleRotate s eid delta).elements, el.id = eid →
      ∃ r : ℚ, el.rotation = some r ∧ -360 < r ∧ r < 360 ∧
        ∃ (el₀ : CanvasElementData) (k : ℤ), el₀ ∈ s.elements ∧
          r = jsNumOr el₀.rotation 0 + delta - 360 * k) ∧
    (∀ el ∈ (commitRotationResize s eid pending ps).elements, el.id = eid →
      ∃ r : ℚ, el.rotation = some r ∧ -360 < r ∧ r < 360 ∧
        ∃ k : ℤ, r = pending - 360 * k) := by
  have h360 : (0 : ℚ) < 360 := by norm_num
  constructor
  · intro el hel hid
    simp only [handleRotate, updateElementsWithHistory,
      List.mem_map] at hel
    obtain ⟨el₀, hmem, hfe⟩ := hel
    by_cases hideq : el₀.id = eid
    · rw [if_pos hideq] at hfe
      subst hfe
      obtain ⟨hlo, hhi⟩ := jsMod_bounds (jsNumOr el₀.rotation 0 + delta) 360 h360
      exact ⟨_, rfl, hlo, hhi, el₀,
        ratTrunc ((jsNumOr el₀.rotation 0 + delta) / 360), hmem, rfl⟩
    · rw [if_neg hideq] at hfe
      subst hfe
      exact absurd hid hideq
  · intro el hel hid
    simp only [commitRotationResize, updateElementsWithHistory,
      List.mem_map] at hel
    obtain ⟨el₀, hmem, hfe⟩ := hel
    by_cases hideq : el₀.id = eid
    · rw [if_pos hideq] at hfe
      obtain ⟨hlo, hhi⟩ := jsMod_bounds pending 360 h360
      cases ps with
      | none =>
        subst hfe
        exact ⟨_, rfl, hlo, hhi, ratTrunc (pending / 360), rfl⟩
      | some p =>
        subst hfe
        exact ⟨_, rfl, hlo, hhi, ratTrunc (pending / 360), rfl⟩
    · rw [if_neg hideq] at hfe
      subst hfe
      exact absurd hid hideq

/-- Witness for C3 at a concrete input: a cumulative delta of 725
degrees from rotation 0 commits rotation 5, inside the amended
bounds. -/
theorem C3_rotation_commit_range_witness :
    ({ rotElement with rotation := some (5 : ℚ) } ∈
        (handleRotate rotState "a" 725).elements) ∧
      ∃ r : ℚ,
        ({ rotElement with rotation := some (5 : ℚ) } :
            CanvasElementData).rotation = some r ∧
          -360 < r ∧ r < 360 ∧
          ∃ (el₀ : CanvasElementData) (k : ℤ), el₀ ∈ rotState.elements ∧
            r = jsNumOr el₀.rotation 0 + 725 - 360 * k := by
  have ht : ratTrunc ((725 : ℚ) / 360) = 2 :=
    ratTrunc_eq_of_nonneg _ 2 (by norm_num) (by norm_num) (by norm_num)
  have hm : jsMod (725 : ℚ) 360 = 5 := by
    unfold jsMod
    rw [ht]
    norm_num
  have hmem : { rotElement with rotation := some (5 : ℚ) } ∈
      (handleRotate rotState "a" 725).elements := by
    simp [handleRotate, updateElementsWithHistory, rotState, rotElement,
      jsNumOr, hm]
  exact ⟨hmem,
    (C3_rotation_commit_range rotState "a" 725 0 none).1 _ hmem rfl⟩

/-- Applying a drag position never changes the element id. -/
theorem applyDragPosition_id (positions : List (String × ℚ × ℚ))
    (el : CanvasElementData) : (applyDragPosition positions el).id = el.id := by
  unfold applyDragPosition
  cases lookupStart positions el.id <;> rfl

/-- Looking up a dragged id in the positions recorded by
`computeDragPositions` yields the clamped position derived from its
recorded start. -/
theorem lookup_computeDragPositions (ids : List String)
    (starts : List (String × ℚ × ℚ)) (dx dy : ℚ) (id : String) (sx sy : ℚ)
    (hmem : id ∈ ids) (hst : lookupStart starts id = some (sx, sy)) :
    lookupStart (computeDragPositions ids starts dx dy) id =
      some (max 0 (sx + dx), max 0 (sy + dy)) := by
  induction ids with
  | nil => cases hmem
  | cons hd tl ih =>
    rw [List.mem_cons] at hmem
    by_cases heq : hd = id
    · subst heq
      have hstep : List.filterMap (fun i => (lookupStart starts i).map
          fun st => (i, max 0 (st.1 + dx), max 0 (st.2 + dy))) (hd :: tl) =
          (hd, max 0 (sx + dx), max 0 (sy + dy)) ::
            List.filterMap (fun i => (lookupStart starts i).map
              fun st => (i, max 0 (st.1 + dx), max 0 (st.2 + dy))) tl := by
        rw [List.filterMap_cons, hst]
        rfl
      simp only [computeDragPositions]
      rw [hstep]
      simp only [lookupStart]
      rw [List.find?_cons_of_pos _ (by simp)]
      rfl
    · have hmem2 : id ∈ tl := by
        rcases hmem with h | h
        · exact absurd h.symm heq
        · exact h
      have ihr := ih hmem2
      simp only [computeDragPositions] at ihr ⊢
      cases hcase : lookupStart starts hd with
      | none =>
        have hstep : List.filterMap (fun i => (lookupStart starts i).map
            fun st => (i, max 0 (st.1 + dx), max 0 (st.2 + dy))) (hd :: tl) =
            List.filterMap (fun i => (lookupStart starts i).map
              fun st => (i, max 0 (st.1 + dx), max 0 (st.2 + dy))) tl := by
          rw [List.filterMap_cons, hcase]
          rfl
        rw [hstep]
        exact ihr
      | some st =>
        have hstep : List.filterMap (fun i => (lookupStart starts i).map
            fun st2 => (i, max 0 (st2.1 + dx), max 0 (st2.2 + dy))) (hd :: tl) =
            (hd, max 0 (st.1 + dx), max 0 (st.2 + dy)) ::
              List.filterMap (fun i => (lookupStart starts i).map
                fun st2 => (i, max 0 (st2.1 + dx), max 0 (st2.2 + dy))) tl := by
          rw [List.filterMap_cons, hcase]
          rfl
        rw [hstep]
        simp only [lookupStart] at ihr ⊢
        rw [List.find?_cons_of_neg]
        · exact ihr
        · simp [heq]

/-- Claim C4: for every dragged element with a recorded start position,
the position committed on drag release is the start plus the pointer
displacement, clamped at 0 per axis, so a committed drag never produces
a negative coordinate. -/
theorem C4_drag_clamp (s : HomeState) (ids : List String)
    (starts : List (String × ℚ × ℚ)) (dx dy : ℚ)
    (hstarts : ∀ id ∈ ids, ∃ sx sy,
      lookupStart starts id = some (sx, sy)) :
    ∀ el ∈ (commitDragRelease s ids
        (computeDragPositions ids starts dx dy)).elements,
      el.id ∈ ids →
        ∃ sx sy, lookupStart starts el.id = some (sx, sy) ∧
          el.x = max 0 (sx + dx) ∧ el.y = max 0 (sy + dy) ∧
          0 ≤ el.x ∧ 0 ≤ el.y := by
  intro el hel hid
  simp only [commitDragRelease, updateElementsWithHistory,
    List.mem_append] at hel
  rcases hel with h | h
  · rw [List.mem_filter] at h
    simp at h
    exact absurd hid h.2
  · rw [List.mem_map] at h
    obtain ⟨el₀, hmem₀, hfe⟩ := h
    rw [List.mem_filter] at hmem₀
    have hid₀ : el₀.id ∈ ids := by simpa using hmem₀.2
    obtain ⟨sx, sy, hst⟩ := hstarts el₀.id hid₀
    have hpos := lookup_computeDragPositions ids starts dx dy el₀.id
      sx sy hid₀ hst
    subst hfe
    refine ⟨sx, sy, ?_, ?_, ?_, ?_, ?_⟩ <;>
      simp [applyDragPosition, hpos, hst, le_max_left]

/-- Witness for C4 at the drag scenario of the specification: element A
starting at (10, 10) dragged by (50, 5) is committed at (60, 15). -/
theorem C4_drag_clamp_witness :
    ({ dragElemA with x := (60 : ℚ), y := (15 : ℚ) } ∈
        (commitDragRelease dragScenario ["A", "B"]
          (computeDragPositions ["A", "B"]
            [("A", 10, 10), ("B", 200, 10)] 50 5)).elements) ∧
      ∃ sx sy,
        lookupStart [("A", (10 : ℚ), (10 : ℚ)), ("B", 200, 10)]
            ({ dragElemA with x := (60 : ℚ), y := (15 : ℚ) } :
              CanvasElementData).id = some (sx, sy) ∧
          ({ dragElemA with x := (60 : ℚ), y := (15 : ℚ) } :
              CanvasElementData).x = max 0 (sx + 50) ∧
          ({ dragElemA with x := (60 : ℚ), y := (15 : ℚ) } :
              CanvasElementData).y = max 0 (sy + 5) ∧
          0 ≤ ({ dragElemA with x := (60 : ℚ), y := (15 : ℚ) } :
              CanvasElementData).x ∧
          0 ≤ ({ dragElemA with x := (60 : ℚ), y := (15 : ℚ) } :
              CanvasElementData).y := by
  have hstarts : ∀ id ∈ ["A", "B"], ∃ sx sy,
      lookupStart [("A", (10 : ℚ), (10 : ℚ)), ("B", 200, 10)] id =
        some (sx, sy) := by
    intro id hid
    simp only [List.mem_cons, List.not_mem_nil, or_false] at hid
    rcases hid with rfl | rfl
    · exact ⟨10, 10, by decide⟩
    · exact ⟨200, 10, by decide⟩
  have hels : (commitDragRelease dragScenario ["A", "B"]
      (computeDragPositions ["A", "B"]
        [("A", 10, 10), ("B", 200, 10)] 50 5)).elements =
      [{ dragElemA with x := max 0 ((10 : ℚ) + 50), y := max 0 ((10 : ℚ) + 5) }, { dragElemB with x := max 0 ((200 : ℚ) + 50), y := max 0 ((10 : ℚ) + 5) }] := rfl
  have hmem : { dragElemA with x := (60 : ℚ), y := (15 : ℚ) } ∈
      (commitDragRelease dragScenario ["A", "B"]
        (computeDragPositions ["A", "B"]
          [("A", 10, 10), ("B", 200, 10)] 50 5)).elements := by
    rw [hels]
    have hx : max 0 ((10 : ℚ) + 50) = 60 := by norm_num
    have hy : max 0 ((10 : ℚ) + 5) = 15 := by norm_num
    rw [hx, hy]
    exact List.mem_cons_self _ _
  exact ⟨hmem, C4_drag_clamp dragScenario ["A", "B"]
    [("A", 10, 10), ("B", 200, 10)] 50 5 hstarts _ hmem (by simp [dragElemA])⟩

/-- Claim C5: releasing a drag of a non-empty selection commits exactly
one history entry whose state is the non-dragged elements in their
original relative order followed by the dragged elements in their
original relative order with updated positions, with no elements added
or removed. -/
theorem C5_drag_release_commit (s : HomeState) (dragIds : List String)
    (positions : List (String × ℚ × ℚ)) (_hne : dragIds ≠ [])
    (htail : s.historyIndex = s.history.length - 1) :
    (commitDragRelease s dragIds positions).elements =
        s.elements.filter (fun el => !(decide (el.id ∈ dragIds))) ++
          (s.elements.filter fun el => decide (el.id ∈ dragIds)).map
            (applyDragPosition positions) ∧
      (commitDragRelease s dragIds positions).history =
        s.history ++ [(commitDragRelease s dragIds positions).elements] ∧
      (commitDragRelease s dragIds positions).history.length =
        s.history.length + 1 ∧
      (commitDragRelease s dragIds positions).elements.length =
        s.elements.length ∧
      List.Perm
        ((commitDragRelease s dragIds positions).elements.map
          fun el => el.id)
        (s.elements.map fun el => el.id) ∧
      (commitDragRelease s dragIds positions).elements.filter
          (fun el => !(decide (el.id ∈ dragIds))) =
        s.elements.filter (fun el => !(decide (el.id ∈ dragIds))) ∧
      (commitDragRelease s dragIds positions).elements.filter
          (fun el => decide (el.id ∈ dragIds)) =
        (s.elements.filter fun el => decide (el.id ∈ dragIds)).map
          (applyDragPosition positions) := by
  have htake : s.history.take (s.historyIndex + 1) = s.history := by
    apply List.take_of_length_le
    omega
  have hABperm : List.Perm
      (s.elements.filter (fun el => !(decide (el.id ∈ dragIds))) ++
        s.elements.filter (fun el => decide (el.id ∈ dragIds)))
      s.elements :=
    List.Perm.trans List.perm_append_comm
      (List.filter_append_perm (fun el => decide (el.id ∈ dragIds))
        s.elements)
  have hhist : (commitDragRelease s dragIds positions).history =
      s.history.take (s.historyIndex + 1) ++
        [(commitDragRelease s dragIds positions).elements] := rfl
  refine ⟨rfl, ?_, ?_, ?_, ?_, ?_, ?_⟩
  · rw [hhist, htake]
  · rw [hhist, htake]
    simp
  · have hlen := hABperm.length_eq
    simp only [List.length_append] at hlen
    simp only [commitDragRelease, updateElementsWithHistory,
      List.length_append, List.length_map]
    omega
  · have hmapeq : ((s.elements.filter fun el =>
        decide (el.id ∈ dragIds)).map
          (applyDragPosition positions)).map (fun el => el.id) =
        (s.elements.filter fun el => decide (el.id ∈ dragIds)).map
          fun el => el.id := by
      rw [List.map_map]
      exact List.map_congr_left fun b _ => applyDragPosition_id positions b
    simp only [commitDragRelease, updateElementsWithHistory,
      List.map_append, hmapeq]
    rw [← List.map_append]
    exact hABperm.map _
  · simp only [commitDragRelease, updateElementsWithHistory,
      List.filter_append]
    have h1 : (s.elements.filter
        (fun el => !(decide (el.id ∈ dragIds)))).filter
          (fun el => !(decide (el.id ∈ dragIds))) =
        s.elements.filter fun el => !(decide (el.id ∈ dragIds)) :=
      List.filter_eq_self.mpr fun a ha => (List.mem_filter.mp ha).2
    have h2 : ((s.elements.filter fun el =>
        decide (el.id ∈ dragIds)).map (applyDragPosition positions)).filter
          (fun el => !(decide (el.id ∈ dragIds))) = [] := by
      apply List.filter_eq_nil_iff.mpr
      intro x hx
      rw [List.mem_map] at hx
      obtain ⟨b, hb, rfl⟩ := hx
      have hpb : decide (b.id ∈ dragIds) = true := (List.mem_filter.mp hb).2
      simp only [applyDragPosition_id, hpb, Bool.not_true,
        Bool.false_eq_true, not_false_eq_true]
    rw [h1, h2, List.append_nil]
  · simp only [commitDragRelease, updateElementsWithHistory,
      List.filter_append]
    have h1 : (s.elements.filter
        (fun el => !(decide (el.id ∈ dragIds)))).filter
          (fun el => decide (el.id ∈ dragIds)) = [] := by
      apply List.filter_eq_nil_iff.mpr
      intro x hx
      have hx2 := (List.mem_filter.mp hx).2
      simp only [Bool.not_eq_true, decide_eq_false_iff_not] at hx2
      simpa using hx2
    have h2 : ((s.elements.filter fun el =>
        decide (el.id ∈ dragIds)).map (applyDragPosition positions)).filter
          (fun el => decide (el.id ∈ dragIds)) =
        (s.elements.filter fun el => decide (el.id ∈ dragIds)).map
          (applyDragPosition positions) := by
      apply List.filter_eq_self.mpr
      intro x hx
      rw [List.mem_map] at hx
      obtain ⟨b, hb, rfl⟩ := hx
      have hpb : decide (b.id ∈ dragIds) = true := (List.mem_filter.mp hb).2
      simpa [applyDragPosition_id] using hpb
    rw [h1, h2, List.nil_append]

/-- Witness for C5 at the drag scenario of the specification: releasing
the drag of A and B adds exactly one history entry and keeps both
elements. -/
theorem C5_drag_release_commit_witness :
    (["A", "B"] : List String) ≠ [] ∧
      dragScenario.historyIndex = dragScenario.history.length - 1 ∧
      (commitDragRelease dragScenario ["A", "B"]
          (computeDragPositions ["A", "B"]
            [("A", 10, 10), ("B", 200, 10)] 50 5)).history.length =
        dragScenario.history.length + 1 ∧
      (commitDragRelease dragScenario ["A", "B"]
          (computeDragPositions ["A", "B"]
            [("A", 10, 10), ("B", 200, 10)] 50 5)).elements.length =
        dragScenario.elements.length :=
  ⟨by decide, by decide,
    (C5_drag_release_commit dragScenario ["A", "B"]
      (computeDragPositions ["A", "B"] [("A", 10, 10), ("B", 200, 10)] 50 5)
      (by decide) (by decide)).2.2.1,
    (C5_drag_release_commit dragScenario ["A", "B"]
      (computeDragPositions ["A", "B"] [("A", 10, 10), ("B", 200, 10)] 50 5)
      (by decide) (by decide)).2.2.2.1⟩

/-- Claim C6: the marquee rectangle is normalized with min and absolute
difference, so the live selection computed for a sweep from P to Q is
identical to the selection for the sweep from Q to P, for every element
list and every measurement of unmeasured boxes. -/
theorem C6_marquee_order_independent (elements : List CanvasElementData)
    (measure : String → Option (ℚ × ℚ)) (sx sy cx cy : ℚ) :
    getMarqueeRect ⟨sx, sy, cx, cy⟩ =
        ⟨min sx cx, min sy cy, |cx - sx|, |cy - sy|⟩ ∧
      getMarqueeRect ⟨sx, sy, cx, cy⟩ = getMarqueeRect ⟨cx, cy, sx, sy⟩ ∧
      marqueeSelection elements measure ⟨sx, sy, cx, cy⟩ =
        marqueeSelection elements measure ⟨cx, cy, sx, sy⟩ := by
  have hrect : getMarqueeRect ⟨sx, sy, cx, cy⟩ =
      getMarqueeRect ⟨cx, cy, sx, sy⟩ := by
    simp only [getMarqueeRect]
    rw [min_comm cx sx, min_comm cy sy, abs_sub_comm sx cx,
      abs_sub_comm sy cy]
  refine ⟨rfl, hrect, ?_⟩
  unfold marqueeSelection
  rw [hrect]

/-- The x-axis effect of a west-style clamped edge move preserves the
crop bounds. -/
theorem west_clamp_bounds (x w nw dx : ℚ) (hx : 0 ≤ x) (hxw : x + w ≤ nw)
    (hw : 20 ≤ w) :
    0 ≤ max 0 (min (x + dx) (x + w - 20)) ∧
      max 0 (min (x + dx) (x + w - 20)) +
        (w - (max 0 (min (x + dx) (x + w - 20)) - x)) ≤ nw ∧
      20 ≤ w - (max 0 (min (x + dx) (x + w - 20)) - x) := by
  have h1 : 0 ≤ max 0 (min (x + dx) (x + w - 20)) := le_max_left _ _
  have h2 : max 0 (min (x + dx) (x + w - 20)) ≤ x + w - 20 :=
    max_le (by linarith) (min_le_right _ _)
  exact ⟨h1, by linarith, by linarith⟩

/-- The x-axis effect of an east-style clamped edge move preserves the
crop bounds. -/
theorem east_clamp_bounds (x w nw dx : ℚ) (_hx : 0 ≤ x) (hxw : x + w ≤ nw)
    (hw : 20 ≤ w) :
    20 ≤ max 20 (min (w + dx) (nw - x)) ∧
      x + max 20 (min (w + dx) (nw - x)) ≤ nw := by
  have h2 : max 20 (min (w + dx) (nw - x)) ≤ nw - x :=
    max_le (by linarith) (min_le_right _ _)
  exact ⟨le_max_left _ _, by linarith⟩

/-- One crop-handle adjustment preserves the crop invariant. -/
theorem applyCropHandle_inv (handle : HandleDirection) (sc : CropRect)
    (natDx natDy nw nh : ℚ) (hinv : cropInv sc nw nh) :
    cropInv (applyCropHandle handle sc natDx natDy nw nh) nw nh := by
  obtain ⟨hx, hy, hxw, hyh, hw, hh⟩ := hinv
  have hw20 : (20 : ℚ) ≤ sc.width := hw
  have hh20 : (20 : ℚ) ≤ sc.height := hh
  cases handle with
  | w =>
    obtain ⟨a1, a2, a3⟩ := west_clamp_bounds sc.x sc.width nw natDx hx hxw hw20
    exact ⟨a1, hy, a2, hyh, a3, hh⟩
  | e =>
    obtain ⟨a1, a2⟩ := east_clamp_bounds sc.x sc.width nw natDx hx hxw hw20
    exact ⟨hx, hy, a2, hyh, a1, hh⟩
  | n =>
    obtain ⟨b1, b2, b3⟩ :=
      west_clamp_bounds sc.y sc.height nh natDy hy hyh hh20
    exact ⟨hx, b1, hxw, b2, hw, b3⟩
  | s =>
    obtain ⟨b1, b2⟩ := east_clamp_bounds sc.y sc.height nh natDy hy hyh hh20
    exact ⟨hx, hy, hxw, b2, hw, b1⟩
  | nw =>
    obtain ⟨a1, a2, a3⟩ := west_clamp_bounds sc.x sc.width nw natDx hx hxw hw20
    obtain ⟨b1, b2, b3⟩ :=
      west_clamp_bounds sc.y sc.height nh natDy hy hyh hh20
    exact ⟨a1, b1, a2, b2, a3, b3⟩
  | ne =>
    obtain ⟨a1, a2⟩ := east_clamp_bounds sc.x sc.width nw natDx hx hxw hw20
    obtain ⟨b1, b2, b3⟩ :=
      west_clamp_bounds sc.y sc.height nh natDy hy hyh hh20
    exact ⟨hx, b1, a2, b2, a1, b3⟩
  | sw =>
    obtain ⟨a1, a2, a3⟩ := west_clamp_bounds sc.x sc.width nw natDx hx hxw hw20
    obtain ⟨b1, b2⟩ := east_clamp_bounds sc.y sc.height nh natDy hy hyh hh20
    exact ⟨a1, hy, a2, b2, a3, b1⟩
  | se =>
    obtain ⟨a1, a2⟩ := east_clamp_bounds sc.x sc.width nw natDx hx hxw hw20
    obtain ⟨b1, b2⟩ := east_clamp_bounds sc.y sc.height nh natDy hy hyh hh20
    exact ⟨hx, hy, a2, b2, a1, b1⟩

/-- Claim C7: starting from a working crop rectangle satisfying the
crop invariant, any sequence of crop-handle adjustments keeps the
invariant, and the rectangle committed by `commitCrop` is the working
rectangle unchanged, so the committed crop rectangle satisfies the
invariant. -/
theorem C7_crop_invariant (c0 : CropRect)
    (gs : List (HandleDirection × ℚ × ℚ)) (nw nh : ℚ)
    (pre : Option CropRect) (pw ph : ℚ) (hinv : cropInv c0 nw nh) :
    cropInv (applyCropGestures c0 gs nw nh) nw nh ∧
      (commitCropResult (applyCropGestures c0 gs nw nh)
          pre pw ph nw nh).1 = applyCropGestures c0 gs nw nh ∧
      cropInv (commitCropResult (applyCropGestures c0 gs nw nh)
          pre pw ph nw nh).1 nw nh := by
  have hfold : ∀ c : CropRect, cropInv c nw nh →
      cropInv (applyCropGestures c gs nw nh) nw nh := by
    induction gs with
    | nil => exact fun c h => h
    | cons g tl ih =>
      intro c h
      simp only [applyCropGestures, List.foldl_cons]
      simp only [applyCropGestures] at ih
      exact ih _ (applyCropHandle_inv g.1 c g.2.1 g.2.2 nw nh h)
  exact ⟨hfold c0 hinv, rfl, hfold c0 hinv⟩

/-- Witness for C7 at the crop scenario of the specification: a
400 by 300 image fully covered by the working crop, with the east
handle dragged left by 40 natural pixels. -/
theorem C7_crop_invariant_witness :
    cropInv ⟨0, 0, 400, 300⟩ 400 300 ∧
      cropInv (applyCropGestures ⟨0, 0, 400, 300⟩
        [(HandleDirection.e, -40, 0)] 400 300) 400 300 :=
  ⟨by norm_num [cropInv, MIN_CROP_PX],
    (C7_crop_invariant ⟨0, 0, 400, 300⟩ [(HandleDirection.e, -40, 0)]
      400 300 none 200 150 (by norm_num [cropInv, MIN_CROP_PX])).1⟩

/-- Claim C8: when a textbox loses focus with falsy trimmed content, it
is removed from the canvas state (a deletion of exactly that id, one
history commit) and its id leaves the selection set; a blur of a textbox
with non-empty trimmed content changes nothing. -/
theorem C8_blur_empty_textbox (s : HomeState) (id : String)
    (el : CanvasElementData)
    (hfind : s.elements.find? (fun e => e.id == id) = some el) :
    (el.type = ElementType.textbox → emptyTrimmed el.content = true →
      (handleElementBlur s id).elements =
          s.elements.filter (fun e => !(e.id == id)) ∧
        (∀ e ∈ (handleElementBlur s id).elements, e.id ≠ id) ∧
        (handleElementBlur s id).history =
          s.history.take (s.historyIndex + 1) ++
            [s.elements.filter fun e => !(e.id == id)] ∧
        (s.historyIndex = s.history.length - 1 →
          (handleElementBlur s id).history.length =
            s.history.length + 1) ∧
        ((s.elements.map fun e => e.id).Nodup →
          (handleElementBlur s id).elements.length + 1 =
            s.elements.length) ∧
        id ∉ (handleElementBlur s id).selectedElementIds ∧
        (handleElementBlur s id).selectedElementIds =
          s.selectedElementIds.erase id) ∧
      (el.type = ElementType.textbox → emptyTrimmed el.content = false →
        handleElementBlur s id = s) := by
  have hmem : el ∈ s.elements := List.mem_of_find?_eq_some hfind
  have hpred := List.find?_some hfind
  have hid : el.id = id := by simpa using hpred
  constructor
  · intro htype hempty
    have hcond : el.type = ElementType.textbox ∧
        emptyTrimmed el.content = true := ⟨htype, hempty⟩
    have hblur : handleElementBlur s id =
        if id ∈ s.selectedElementIds then
          { updateElementsWithHistory s
              (s.elements.filter fun e => !(e.id == id)) with
            selectedElementIds := s.selectedElementIds.erase id }
        else updateElementsWithHistory s
          (s.elements.filter fun e => !(e.id == id)) := by
      unfold handleElementBlur
      rw [hfind]
      simp only [hcond, and_self, if_true]
    have hsel : id ∉ (handleElementBlur s id).selectedElementIds ∧
        (handleElementBlur s id).selectedElementIds =
          s.selectedElementIds.erase id := by
      rw [hblur]
      by_cases hin : id ∈ s.selectedElementIds
      · rw [if_pos hin]
        exact ⟨Finset.not_mem_erase _ _, rfl⟩
      · rw [if_neg hin]
        exact ⟨hin, (Finset.erase_eq_of_not_mem hin).symm⟩
    have hels : (handleElementBlur s id).elements =
        s.elements.filter (fun e => !(e.id == id)) := by
      rw [hblur]
      by_cases hin : id ∈ s.selectedElementIds
      · rw [if_pos hin]
        rfl
      · rw [if_neg hin]
        rfl
    have hhist : (handleElementBlur s id).history =
        s.history.take (s.historyIndex + 1) ++
          [s.elements.filter fun e => !(e.id == id)] := by
      rw [hblur]
      by_cases hin : id ∈ s.selectedElementIds
      · rw [if_pos hin]
        rfl
      · rw [if_neg hin]
        rfl
    refine ⟨hels, ?_, hhist, ?_, ?_, hsel.1, hsel.2⟩
    · intro e he
      rw [hels, List.mem_filter] at he
      simpa using he.2
    · intro htail
      rw [hhist]
      have htake : s.history.take (s.historyIndex + 1) = s.history := by
        apply List.take_of_length_le
        omega
      rw [htake]
      simp
    · intro hnodup
      have hidmem : id ∈ s.elements.map fun e => e.id := by
        rw [← hid]
        exact List.mem_map_of_mem _ hmem
      have hcount1 : (s.elements.map fun e => e.id).count id = 1 :=
        List.count_eq_one_of_mem hnodup hidmem
      have hcount2 : (s.elements.map fun e => e.id).count id =
          s.elements.countP fun e => e.id == id := by
        rw [List.count, List.countP_map]
        rfl
      have hsplit :=
        (List.filter_append_perm (fun e => e.id == id) s.elements).length_eq
      rw [List.length_append] at hsplit
      have hflen : (s.elements.filter fun e => e.id == id).length = 1 := by
        rw [← List.countP_eq_length_filter]
        rw [← hcount2]
        exact hcount1
      rw [hels]
      omega
  · intro _ hfalse
    have hcond : ¬ (el.type = ElementType.textbox ∧
        emptyTrimmed el.content = true) := by
      intro hc
      rw [hfalse] at hc
      exact Bool.false_ne_true hc.2
    unfold handleElementBlur
    rw [hfind]
    exact if_neg hcond

/-- Witness for C8 at a concrete state: blurring the selected empty
textbox deletes it, commits one entry, and clears it from the
selection. -/
theorem C8_blur_empty_textbox_witness :
    blurState.elements.find? (fun e => e.id == "t0") = some emptyTextbox ∧
      (handleElementBlur blurState "t0").elements =
        blurState.elements.filter (fun e => !(e.id == "t0")) ∧
      "t0" ∉ (handleElementBlur blurState "t0").selectedElementIds := by
  have hfind : blurState.elements.find? (fun e => e.id == "t0") =
      some emptyTextbox := by decide
  have hres := (C8_blur_empty_textbox blurState "t0" emptyTextbox hfind).1
    rfl rfl
  exact ⟨hfind, hres.1, hres.2.2.2.2.2.1⟩

/-- A single eyedropper pointer-move changes neither the target, the
recorded start color, the history, the cursor, nor the element ids. -/
theorem eyedropperMouseMove_frame (st : EyedropperState) (c : Option String) :
    (eyedropperMouseMove st c).targetId = st.targetId ∧
      (eyedropperMouseMove st c).startColor = st.startColor ∧
      (eyedropperMouseMove st c).home.history = st.home.history ∧
      (eyedropperMouseMove st c).home.historyIndex = st.home.historyIndex ∧
      (eyedropperMouseMove st c).home.elements.map (fun e => e.id) =
        st.home.elements.map fun e => e.id := by
  unfold eyedropperMouseMove
  split
  · exact ⟨rfl, rfl, rfl, rfl, rfl⟩
  · split
    · exact ⟨rfl, rfl, rfl, rfl, rfl⟩
    · split
      · exact ⟨rfl, rfl, rfl, rfl, rfl⟩
      · refine ⟨rfl, rfl, rfl, rfl, ?_⟩
        unfold previewShapeFillColor
        rw [List.map_map]
        apply List.map_congr_left
        intro e _
        simp only [Function.comp_apply]
        split <;> rfl

/-- A whole sequence of eyedropper pointer-moves changes neither the
target, the recorded start color, the history, the cursor, nor the
element ids. -/
theorem eyedropperMoves_frame (moves : List (Option String))
    (st : EyedropperState) :
    ((moves.foldl eyedropperMouseMove st).targetId = st.targetId ∧
      (moves.foldl eyedropperMouseMove st).startColor = st.startColor ∧
      (moves.foldl eyedropperMouseMove st).home.history =
        st.home.history ∧
      (moves.foldl eyedropperMouseMove st).home.historyIndex =
        st.home.historyIndex ∧
      (moves.foldl eyedropperMouseMove st).home.elements.map
        (fun e => e.id) = st.home.elements.map fun e => e.id) := by
  induction moves generalizing st with
  | nil => exact ⟨rfl, rfl, rfl, rfl, rfl⟩
  | cons m tl ih =>
    simp only [List.foldl_cons]
    obtain ⟨h1, h2, h3, h4, h5⟩ := ih (eyedropperMouseMove st m)
    obtain ⟨g1, g2, g3, g4, g5⟩ := eyedropperMouseMove_frame st m
    exact ⟨h1.trans g1, h2.trans g2, h3.trans g3, h4.trans g4,
      h5.trans g5⟩

/-- Claim C9: while the eyedropper is active for a target shape whose
fill color at activation is a truthy string, a click with a successful
sample commits exactly one history entry carrying the sampled fill color
and exits the mode, while Escape exits the mode, leaves the history and
cursor untouched, and restores the fill color recorded at
activation. -/
theorem C9_eyedropper_click_escape (s : HomeState) (tid : String)
    (el : CanvasElementData) (c0 : String) (moves : List (Option String))
    (c : String)
    (hfind : s.elements.find? (fun e => e.id == tid) = some el)
    (hfill : el.fillColor = some c0) (hc0 : c0 ≠ "") :
    ((eyedropperSession s tid moves).targetId = some tid ∧
      (eyedropperSession s tid moves).home.history = s.history ∧
      (eyedropperSession s tid moves).home.historyIndex =
        s.historyIndex) ∧
      ((eyedropperClick (eyedropperSession s tid moves)
          (some c)).targetId = none ∧
        (eyedropperClick (eyedropperSession s tid moves)
            (some c)).home.history =
          s.history.take (s.historyIndex + 1) ++
            [(eyedropperClick (eyedropperSession s tid moves)
              (some c)).home.elements] ∧
        (s.historyIndex = s.history.length - 1 →
          (eyedropperClick (eyedropperSession s tid moves)
              (some c)).home.history.length = s.history.length + 1) ∧
        (∀ e ∈ (eyedropperClick (eyedropperSession s tid moves)
            (some c)).home.elements,
          e.id = tid → e.fillColor = some c) ∧
        (∃ e ∈ (eyedropperClick (eyedropperSession s tid moves)
            (some c)).home.elements,
          e.id = tid ∧ e.fillColor = some c)) ∧
      ((eyedropperEscape (eyedropperSession s tid moves)).targetId =
          none ∧
        (eyedropperEscape (eyedropperSession s tid moves)).home.history =
          s.history ∧
        (eyedropperEscape
            (eyedropperSession s tid moves)).home.historyIndex =
          s.historyIndex ∧
        (∀ e ∈ (eyedropperEscape
            (eyedropperSession s tid moves)).home.elements,
          e.id = tid → e.fillColor = some c0) ∧
        (∃ e ∈ (eyedropperEscape
            (eyedropperSession s tid moves)).home.elements,
          e.id = tid ∧ e.fillColor = some c0)) := by
  have hmemEl : el ∈ s.elements := List.mem_of_find?_eq_some hfind
  have hpredEl := List.find?_some hfind
  have hidEl : el.id = tid := by simpa using hpredEl
  have h0t : (handleStartShapeEyedropper ⟨s, none, none, none⟩
      tid).targetId = some tid := by
    unfold handleStartShapeEyedropper
    rw [if_neg (by simp)]
  have h0s : (handleStartShapeEyedropper ⟨s, none, none, none⟩
      tid).startColor = some c0 := by
    unfold handleStartShapeEyedropper
    rw [if_neg (by simp)]
    show jsStrOrNull ((s.elements.find? fun e => e.id == tid).bind
      fun e => e.fillColor) = some c0
    rw [hfind]
    show jsStrOrNull el.fillColor = some c0
    rw [hfill]
    show (if c0 = "" then none else some c0 : Option String) = some c0
    rw [if_neg hc0]
  have h0h : (handleStartShapeEyedropper ⟨s, none, none, none⟩
      tid).home = s := by
    unfold handleStartShapeEyedropper
    rw [if_neg (by simp)]
  obtain ⟨hMt, hMs, hMh, hMi, hMids⟩ := eyedropperMoves_frame moves
    (handleStartShapeEyedropper ⟨s, none, none, none⟩ tid)
  have hMt2 : (eyedropperSession s tid moves).targetId = some tid :=
    hMt.trans h0t
  have hMs2 : (eyedropperSession s tid moves).startColor = some c0 :=
    hMs.trans h0s
  have hMh2 : (eyedropperSession s tid moves).home.history = s.history := by
    rw [show (eyedropperSession s tid moves).home.history =
      (handleStartShapeEyedropper ⟨s, none, none, none⟩
        tid).home.history from hMh, h0h]
  have hMi2 : (eyedropperSession s tid moves).home.historyIndex =
      s.historyIndex := by
    rw [show (eyedropperSession s tid moves).home.historyIndex =
      (handleStartShapeEyedropper ⟨s, none, none, none⟩
        tid).home.historyIndex from hMi, h0h]
  have hMids2 : (eyedropperSession s tid moves).home.elements.map
      (fun e => e.id) = s.elements.map fun e => e.id := by
    rw [show (eyedropperSession s tid moves).home.elements.map
      (fun e => e.id) =
      (handleStartShapeEyedropper ⟨s, none, none, none⟩
        tid).home.elements.map (fun e => e.id) from hMids, h0h]
  have hfillmap : ∀ (h : HomeState) (col : String),
      ∀ e ∈ h.elements.map fun x =>
        if x.id = tid then { x with fillColor := some col } else x,
      e.id = tid → e.fillColor = some col := by
    intro h col e he hid2
    rw [List.mem_map] at he
    obtain ⟨e₀, _, rfl⟩ := he
    by_cases h0 : e₀.id = tid
    · simp [h0]
    · rw [if_neg h0] at hid2 ⊢
      exact absurd hid2 h0
  have hexmap : ∀ (h : HomeState) (col : String),
      h.elements.map (fun e => e.id) = s.elements.map (fun e => e.id) →
      ∃ e ∈ h.elements.map fun x =>
        if x.id = tid then { x with fillColor := some col } else x,
        e.id = tid ∧ e.fillColor = some col := by
    intro h col hids
    have htid : tid ∈ h.elements.map fun e => e.id := by
      rw [hids, ← hidEl]
      exact List.mem_map_of_mem _ hmemEl
    rw [List.mem_map] at htid
    obtain ⟨e₀, he₀, hide₀⟩ := htid
    refine ⟨if e₀.id = tid then { e₀ with fillColor := some col } else e₀,
      List.mem_map_of_mem _ he₀, ?_, ?_⟩
    · rw [if_pos hide₀]
      exact hide₀
    · rw [if_pos hide₀]
  have hclick : eyedropperClick (eyedropperSession s tid moves) (some c) =
      { home := commitShapeFillColor (eyedropperSession s tid moves).home
          tid c
        targetId := none
        startColor := none
        lastPreviewColor := none } := by
    unfold eyedropperClick
    rw [hMt2]
  have hesc : eyedropperEscape (eyedropperSession s tid moves) =
      { home := previewShapeFillColor (eyedropperSession s tid moves).home
          tid c0
        targetId := none
        startColor := none
        lastPreviewColor := none } := by
    unfold eyedropperEscape
    rw [hMt2, hMs2]
  refine ⟨⟨hMt2, hMh2, hMi2⟩, ⟨?_, ?_, ?_, ?_, ?_⟩, ⟨?_, ?_, ?_, ?_, ?_⟩⟩
  · rw [hclick]
  · rw [hclick]
    show (eyedropperSession s tid moves).home.history.take
        ((eyedropperSession s tid moves).home.historyIndex + 1) ++ _ = _
    rw [hMh2, hMi2]
    rfl
  · intro htail
    rw [hclick]
    show ((eyedropperSession s tid moves).home.history.take
        ((eyedropperSession s tid moves).home.historyIndex + 1) ++
          _).length = _
    rw [hMh2, hMi2]
    rw [List.take_of_length_le (by omega)]
    simp
  · rw [hclick]
    exact hfillmap _ c
  · rw [hclick]
    exact hexmap _ c hMids2
  · rw [hesc]
  · rw [hesc]
    exact hMh2
  · rw [hesc]
    exact hMi2
  · rw [hesc]
    exact hfillmap _ c0
  · rw [hesc]
    exact hexmap _ c0 hMids2

/-- Witness for C9 at a concrete state: activating the eyedropper on
the sample shape, clicking a sampled color exits the mode, and Escape
leaves the shape at its activation fill color. -/
theorem C9_eyedropper_click_escape_witness :
    shapeState.elements.find? (fun e => e.id == "s1") =
        some shapeElement ∧
      (eyedropperClick (eyedropperSession shapeState "s1" [])
          (some "#112233")).targetId = none ∧
      ∃ e ∈ (eyedropperEscape
          (eyedropperSession shapeState "s1" [])).home.elements,
        e.id = "s1" ∧ e.fillColor = some "#FDE68A" := by
  have hfind : shapeState.elements.find? (fun e => e.id == "s1") =
      some shapeElement := by decide
  have h := C9_eyedropper_click_escape shapeState "s1" shapeElement
    "#FDE68A" [] "#112233" hfind rfl (by decide)
  exact ⟨hfind, h.2.1.1, h.2.2.2.2.2.2⟩

end Multimeme
